import Mathlib

/-!
Verification development for the MPAQ mix converter
(`convertMPAQMixes` and its helpers).

The JavaScript/TypeScript source is shallowly embedded:

* A spreadsheet cell value (`string | number | null | undefined`, plus the
  distinguished `NaN` number) is the inductive type `Val`.  JS numbers are
  modelled as exact rationals: every value manipulated by the converter is
  parsed from a decimal numeral, and `parseFloat(String(x)) = x` for finite
  numbers, so the decimal-exact model is faithful on this code path (the
  model does not cover IEEE rounding of extreme literals, `Infinity`, or the
  exponent notation `String` uses for magnitudes outside `[1e-6, 1e21)`;
  none of these are exercised by the converter's fixed constants).
* `parseFloat` is modelled by `jsParseFloat` (`none` = `NaN`), including its
  leading-whitespace skipping, sign, fraction and exponent handling and its
  longest-valid-prefix behaviour.
* JS objects built from the header row are association lists with
  last-assignment-wins semantics (`buildRecord` / `recGet`), so a key that was
  assigned `undefined` still counts as present, exactly as `hasOwnProperty`
  reports it.
* `Map` insertion guarded by `has` (first occurrence wins) is the association
  list built by `lookupStep`.
* `throw new Error(...)` is `Except.error` with one tag per distinct message:
  `ConvError.emptyInput`   for "Mix data is empty",
  `ConvError.noValidRows`  for "No valid mixes found with WaterTarget > 0",
  `ConvError.missingRequiredColumns` for
  "Input file must contain MixId and Name columns.".
  `console.log` / `console.warn` calls do not affect the result and are
  dropped.
-/

/-- A JS cell value as seen by the converter. -/
inductive Val where
  | str (s : String)
  | num (q : Rat)
  | nan
  | null
  | undef
deriving DecidableEq, Repr

/-- The empty string value, what `safeGet` substitutes for a missing column. -/
def vEmpty : Val := Val.str ("")

-- Named characters (the apostrophe is written via its code point to keep the
-- source free of quote-character literals).
def quoteChar : Char := Char.ofNat 39
def dotChar : Char := Char.ofNat 46
def minusChar : Char := Char.ofNat 45
def plusChar : Char := Char.ofNat 43
def eLowChar : Char := Char.ofNat 101
def eUpChar : Char := Char.ofNat 69

/-- JS whitespace as used by `parseFloat`, `trim` and the regex class. -/
def isJsWs (c : Char) : Bool :=
  c == Char.ofNat 32 || c == Char.ofNat 9 || c == Char.ofNat 10 ||
  c == Char.ofNat 11 || c == Char.ofNat 12 || c == Char.ofNat 13 ||
  c == Char.ofNat 160 || c == Char.ofNat 65279

/-- `String.prototype.trim`: strip whitespace from both ends. -/
def jsTrim (s : String) : String :=
  String.mk (((s.toList.dropWhile isJsWs).reverse.dropWhile isJsWs).reverse)

/-- Whether `pat` occurs at the start of `s`. -/
def listHasPre (pat s : List Char) : Bool :=
  match pat, s with
  | [], _ => true
  | _ :: _, [] => false
  | p :: ps, c :: cs => p == c && listHasPre ps cs

/-- Whether `pat` occurs somewhere inside `s`. -/
def listHasSub (pat : List Char) : List Char → Bool
  | [] => pat.isEmpty
  | c :: cs => listHasPre pat (c :: cs) || listHasSub pat cs

/-- `a.includes(b)` on strings. -/
def strIncludes (a b : String) : Bool := listHasSub b.toList a.toList

/-- Numeric value of a run of decimal digits. -/
def digitsToNat (ds : List Char) : Nat :=
  ds.foldl (fun acc c => acc * 10 + (c.toNat - 48)) 0

/-- The rational `m * 10 ^ e` (signed decimal exponent), built through
`mkRat` so that concrete values reduce in the kernel. -/
def decValue (m : Int) (e : Int) : Rat :=
  if 0 ≤ e then mkRat (m * (10 : Int) ^ e.toNat) 1 else mkRat m ((10 : Nat) ^ (-e).toNat)

/-- Value of `intDs.fracDs` as an exact rational. -/
def mkDecimal (intDs fracDs : List Char) : Rat :=
  decValue ((digitsToNat intDs * 10 ^ fracDs.length + digitsToNat fracDs : Nat) : Int)
    (-(fracDs.length : Int))

/--
Longest valid unsigned decimal significand at the front of `cs`
(`digits`, `digits.digits`, or `.digits`): its integer mantissa, the number
of fraction digits, and the unconsumed rest.
-/
def parseDec (cs : List Char) : Option (Nat × Nat × List Char) :=
  let intDs := cs.takeWhile Char.isDigit
  let rest1 := cs.drop intDs.length
  match rest1 with
  | c :: cs2 =>
    if c == dotChar then
      let fracDs := cs2.takeWhile Char.isDigit
      let rest2 := cs2.drop fracDs.length
      if intDs.isEmpty && fracDs.isEmpty then none
      else some (digitsToNat intDs * 10 ^ fracDs.length + digitsToNat fracDs, fracDs.length, rest2)
    else if intDs.isEmpty then none else some (digitsToNat intDs, 0, rest1)
  | [] => if intDs.isEmpty then none else some (digitsToNat intDs, 0, [])

/-- A well-formed exponent part `e`/`E`, optional sign, digits. -/
def parseExpPart (cs : List Char) : Option (Int × List Char) :=
  match cs with
  | c :: cs2 =>
    if c == eLowChar || c == eUpChar then
      match cs2 with
      | s :: cs3 =>
        if s == plusChar || s == minusChar then
          let ds := cs3.takeWhile Char.isDigit
          if ds.isEmpty then none
          else
            some ((if s == minusChar then -(digitsToNat ds : Int) else (digitsToNat ds : Int)),
              cs3.drop ds.length)
        else
          let ds := cs2.takeWhile Char.isDigit
          if ds.isEmpty then none else some ((digitsToNat ds : Int), cs2.drop ds.length)
      | [] => none
    else none
  | [] => none

/-- Optional sign, significand, optional exponent; the unconsumed rest. -/
def parseSignedNumber (cs : List Char) : Option (Rat × List Char) :=
  let sgn : Int × List Char :=
    match cs with
    | c :: rest =>
      if c == minusChar then (-1, rest) else if c == plusChar then (1, rest) else (1, cs)
    | [] => (1, cs)
  match parseDec sgn.2 with
  | none => none
  | some (mant, fexp, rest) =>
    match parseExpPart rest with
    | some (e, rest2) => some (decValue (sgn.1 * (mant : Int)) (e - (fexp : Int)), rest2)
    | none => some (decValue (sgn.1 * (mant : Int)) (-(fexp : Int)), rest)

/-- `parseFloat` on a string: skip leading whitespace, parse the longest
numeric prefix; `none` models `NaN`. -/
def jsParseFloatStr (s : String) : Option Rat :=
  match parseSignedNumber (s.toList.dropWhile isJsWs) with
  | some (q, _) => some q
  | none => none


-- ---------- String coercion of values ----------

/-- Smallest `k` with `d ∣ 10 ^ k`, for denominators of decimal rationals
(any value produced by the decimal parser has such a `k`). -/
def pow10DivisorExp (d : Nat) : Option Nat :=
  (List.range 1200).find? (fun k => 10 ^ k % d == 0)

/-- `String(x)` for a finite JS number, in the exact-decimal model: integers
print without a decimal point, other decimal rationals with their (finite,
trailing-zero-free, since the denominator exponent is minimal) expansion.
(JS would switch to exponent notation for extreme magnitudes; the converter
never manufactures such values.) -/
def ratToJSString (q : Rat) : String :=
  match pow10DivisorExp q.den with
  | some k =>
    if k == 0 then toString q.num
    else
      let digits := toString ((q.num * (10 : Int) ^ k / (q.den : Int)).natAbs)
      let padded :=
        if digits.length ≤ k then String.mk (List.replicate (k + 1 - digits.length) (Char.ofNat 48)) ++ digits
        else digits
      let whole := padded.length - k
      (if q.num < 0 then String.mk [minusChar] else "") ++
        String.mk (padded.toList.take whole) ++ String.mk [dotChar] ++
        String.mk (padded.toList.drop whole)
  | none => toString q.num ++ String.mk [Char.ofNat 47] ++ toString q.den

/-- JS `String(x)` on a cell value. -/
def jsToString : Val → String
  | Val.str s => s
  | Val.num q => ratToJSString q
  | Val.nan => "NaN"
  | Val.null => "null"
  | Val.undef => "undefined"

-- ---------- Truthiness and the emptiness predicates ----------

/-- JS truthiness of a cell value. -/
def truthy : Val → Bool
  | Val.str s => s ≠ ""
  | Val.num q => q ≠ 0
  | Val.nan => false
  | Val.null => false
  | Val.undef => false

/-- JS `a || b`. -/
def jsOr (a b : Val) : Val := if truthy a then a else b

/-- `isEmptyValue`: null, undefined, empty string, or a NaN number. -/
def isEmptyValue : Val → Bool
  | Val.null => true
  | Val.undef => true
  | Val.nan => true
  | Val.str s => s == ""
  | Val.num _ => false

/-- `isZeroOrEmpty`: empty per `isEmptyValue`, or `=== 0`, or `=== "0"`. -/
def isZeroOrEmpty (v : Val) : Bool :=
  isEmptyValue v || v == Val.num 0 || v == Val.str ("0")

/-- `parseFloat(x)` on a cell value: a string is parsed; a finite number
round-trips through `String`; `NaN`, `null`, `undefined` give `NaN`
(their string forms have no numeric prefix). -/
def jsParseFloat : Val → Option Rat
  | Val.str s => jsParseFloatStr s
  | Val.num q => some q
  | Val.nan => none
  | Val.null => none
  | Val.undef => none

-- ---------- Field extractors ----------

/--
`extractStrength`: the regex `^(\d+\.?\d*)` applied to `String(name)`, the
captured text fed to `parseFloat`; no match (or null/undefined input) gives
the empty string.
-/
def extractStrength (name : Val) : Val :=
  match name with
  | Val.null => vEmpty
  | Val.undef => vEmpty
  | v =>
    let cs := (jsToString v).toList
    let ds := cs.takeWhile Char.isDigit
    if ds.isEmpty then vEmpty
    else
      match cs.drop ds.length with
      | c :: cs2 =>
        if c == dotChar then Val.num (mkDecimal ds (cs2.takeWhile Char.isDigit))
        else Val.num (mkDecimal ds [])
      | [] => Val.num (mkDecimal ds [])

/-- One attempt of `/'(\d+)'mm/` anchored at the head of `cs`.  The greedy
`\d+` is the maximal digit run: any shorter run is followed by another digit,
which can never equal the required closing quote. -/
def pat1At (cs : List Char) : Option Rat :=
  match cs with
  | [] => none
  | c :: rest =>
    if c == quoteChar then
      let ds := rest.takeWhile Char.isDigit
      if ds.isEmpty then none
      else
        match rest.drop ds.length with
        | c2 :: m1 :: m2 :: _ =>
          if c2 == quoteChar && m1 == 'm' && m2 == 'm' then some (mkDecimal ds [])
          else none
        | _ => none
    else none

/-- Leftmost match of `/'(\d+)'mm/` in `cs` (the capture fed to `parseFloat`). -/
def scanPat1 : List Char → Option Rat
  | [] => none
  | c :: cs =>
    match pat1At (c :: cs) with
    | some q => some q
    | none => scanPat1 cs

/-- One attempt of `/Slump\s+(\d+)mm/i` anchored at the head of `cs`; greedy
`\s+` and `\d+` are the maximal runs (shorter runs are followed by the same
character class and cannot satisfy the next pattern element). -/
def pat2At (cs : List Char) : Option Rat :=
  match cs with
  | c1 :: c2 :: c3 :: c4 :: c5 :: rest =>
    if c1.toLower == 's' && c2.toLower == 'l' && c3.toLower == 'u' &&
       c4.toLower == 'm' && c5.toLower == 'p' then
      let ws := rest.takeWhile isJsWs
      if ws.isEmpty then none
      else
        let rest2 := rest.drop ws.length
        let ds := rest2.takeWhile Char.isDigit
        if ds.isEmpty then none
        else
          match rest2.drop ds.length with
          | m1 :: m2 :: _ =>
            if m1.toLower == 'm' && m2.toLower == 'm' then some (mkDecimal ds []) else none
          | _ => none
    else none
  | _ => none

/-- Leftmost match of `/Slump\s+(\d+)mm/i` in `cs`. -/
def scanPat2 : List Char → Option Rat
  | [] => none
  | c :: cs =>
    match pat2At (c :: cs) with
    | some q => some q
    | none => scanPat2 cs

/--
`extractSlump`: null/undefined give empty; otherwise, on `String(v)`, try
pattern 1 (`/'(\d+)'mm/`), then pattern 2 (`/Slump\s+(\d+)mm/i`), then
`parseFloat` of the whole string; if all fail, empty.
-/
def extractSlump (v : Val) : Val :=
  match v with
  | Val.null => vEmpty
  | Val.undef => vEmpty
  | w =>
    let cs := (jsToString w).toList
    match scanPat1 cs with
    | some q => Val.num q
    | none =>
      match scanPat2 cs with
      | some q => Val.num q
      | none =>
        match jsParseFloatStr (jsToString w) with
        | some q => Val.num q
        | none => vEmpty

-- ---------- Units ----------

def tAggregate : String := "Aggregate"
def tCement : String := "Cement"
def tAdmixture : String := "Admixture"
def tWater : String := "Water"

/-- `getUnitForMaterialType`. -/
def getUnitForMaterialType (matType : String) : String :=
  if matType == tAggregate || matType == tCement then "kg/m^3"
  else if matType == tAdmixture then "mL/100kg CM"
  else if matType == tWater then "L"
  else ""

-- ---------- Source records ----------

/-- A record built from the header row and one data row: JS-object
association list, later assignments shadowing earlier ones. -/
abbrev Record := List (String × Val)

/-- Build the record for one data row: for each header cell (in order) the
key `String(header)` is assigned `row[index]` (`undefined` past the end of
the row).  Duplicate headers are resolved by `recGet` taking the last
assignment, as JS object assignment does. -/
def buildRecord (headers : List Val) (row : List Val) : Record :=
  headers.enum.map (fun p => (jsToString p.2, row.getD p.1 Val.undef))

/-- The value of key `k`, if the key was ever assigned (last assignment wins). -/
def recGet (r : Record) (k : String) : Option Val :=
  match r.reverse.find? (fun p => p.1 == k) with
  | some p => some p.2
  | none => none

/-- `row.hasOwnProperty(col)`. -/
def recHas (r : Record) (k : String) : Bool := (recGet r k).isSome

/-- `safeGet`: the value if the key is present, else the empty string. -/
def safeGet (r : Record) (k : String) : Val :=
  match recGet r k with
  | some v => v
  | none => vEmpty

def kMixId : String := "MixId"
def kName : String := "Name"
def kExternalId : String := "ExternalId"
def kAirFactor : String := "AirFactor"
def kSlump : String := "Slump"
def kWaterTarget : String := "WaterTarget"

-- ---------- Materials lookup ----------

/-- First-match search in the lookup association list (`Map.get`/`has`). -/
def mlFind (lk : List (String × String)) (k : String) : Option String :=
  match lk with
  | [] => none
  | p :: tl => if p.1 == k then some p.2 else mlFind tl k

/-- Header predicate for the material-type column: contains both
"Material Type" and "Required". -/
def matTypePred (h : Val) : Bool :=
  strIncludes (jsToString h) ("Material Type") && strIncludes (jsToString h) ("Required")

/-- Header predicate for the production-code column: contains
"Production Item Code". -/
def prodCodePred (h : Val) : Bool :=
  strIncludes (jsToString h) ("Production Item Code")

/-- Both cells of a materials data row are truthy (the insertion guard). -/
def eligibleRow (mi pIdx : Nat) (row : List Val) : Bool :=
  truthy (row.getD mi Val.undef) && truthy (row.getD pIdx Val.undef)

/-- The trimmed name cell of a materials data row. -/
def rowName (mi : Nat) (row : List Val) : String :=
  jsTrim (jsToString (row.getD mi Val.undef))

/-- The trimmed code cell of a materials data row. -/
def rowCode (pIdx : Nat) (row : List Val) : String :=
  jsTrim (jsToString (row.getD pIdx Val.undef))

/-- One data row of `createMaterialsLookup`: if both cells are truthy, insert
the trimmed name/code pair unless the name is already a key (first occurrence
wins). -/
def lookupStep (mi pIdx : Nat) (acc : List (String × String)) (row : List Val) :
    List (String × String) :=
  if eligibleRow mi pIdx row then
    if (mlFind acc (rowName mi row)).isSome then acc
    else acc ++ [(rowName mi row, rowCode pIdx row)]
  else acc

/-- `createMaterialsLookup`: locate the two columns by fuzzy header match
(empty lookup if either is missing), then fold over the data rows. -/
def createMaterialsLookup (materialsData : List (List Val)) : List (String × String) :=
  match materialsData with
  | [] => []
  | headers :: rows =>
    match headers.findIdx? matTypePred with
    | none => []
    | some mi =>
      match headers.findIdx? prodCodePred with
      | none => []
      | some pIdx => rows.foldl (lookupStep mi pIdx) []

/-- The lookup used by a conversion run: built from the materials table when
one is supplied, empty otherwise. -/
def lookupOf : Option (List (List Val)) → List (String × String)
  | some m => createMaterialsLookup m
  | none => []

-- ---------- Fixed configuration ----------

/-- `PLANTS`. -/
def PLANTS : List String := ["01", "02", "03", "05", "06"]

/-- `FINAL_COLUMNS` (verbatim). -/
def FINAL_COLUMNS : List String :=
  [ "Plant Code",
    "Mix Name",
    "Description",
    "Short Description",
    "Item Category",
    "Strength Age (Default 28)",
    "Strength (MPA)",
    "Design Air Content (%)",
    "Min Air Content (%)",
    "Max Air Content (%)",
    "Design Slump (in)",
    "Min Slump (in)",
    "Max Slump (in)",
    "Max Batch Size",
    "Max Water Gallons",
    "Max W/C+P",
    "Max W/C",
    "Mix Class Names, separate with semicolon",
    "Mix Usage",
    "Dispatch Slump Range",
    "Dispatch",
    "Constituent Item Code",
    "Constituent Item Description",
    "Quantity",
    "Unit Name" ]

/-- The header row of the output, as cell values. -/
def finalColumnsRow : List Val := FINAL_COLUMNS.map Val.str

/-- `aggCols`: `Agg1..Agg6` id/name/target column names. -/
def aggCols : List (String × String × String) :=
  [ ("Agg1Id", "Agg1Name", "Agg1Target"),
    ("Agg2Id", "Agg2Name", "Agg2Target"),
    ("Agg3Id", "Agg3Name", "Agg3Target"),
    ("Agg4Id", "Agg4Name", "Agg4Target"),
    ("Agg5Id", "Agg5Name", "Agg5Target"),
    ("Agg6Id", "Agg6Name", "Agg6Target") ]

/-- `cemCols`: `Cem1..Cem4`. -/
def cemCols : List (String × String × String) :=
  [ ("Cem1Id", "Cem1Name", "Cem1Target"),
    ("Cem2Id", "Cem2Name", "Cem2Target"),
    ("Cem3Id", "Cem3Name", "Cem3Target"),
    ("Cem4Id", "Cem4Name", "Cem4Target") ]

/-- `admCols`: `Adm1..Adm8`. -/
def admCols : List (String × String × String) :=
  [ ("Adm1Id", "Adm1Name", "Adm1Target"),
    ("Adm2Id", "Adm2Name", "Adm2Target"),
    ("Adm3Id", "Adm3Name", "Adm3Target"),
    ("Adm4Id", "Adm4Name", "Adm4Target"),
    ("Adm5Id", "Adm5Name", "Adm5Target"),
    ("Adm6Id", "Adm6Name", "Adm6Target"),
    ("Adm7Id", "Adm7Name", "Adm7Target"),
    ("Adm8Id", "Adm8Name", "Adm8Target") ]

-- ---------- Constituents ----------

/-- A derived constituent `(materialType, matId, matName, matTarget)`. -/
structure Constituent where
  matType : String
  matId : Val
  matName : Val
  matTarget : Val
deriving DecidableEq, Repr

/-- Scan one block of slots: include a slot iff its Id is non-empty and its
Target is not zero-or-empty. -/
def blockConstituents (r : Record) (matType : String)
    (cols : List (String × String × String)) : List Constituent :=
  cols.filterMap (fun c =>
    if !(isEmptyValue (safeGet r c.1)) && !(isZeroOrEmpty (safeGet r c.2.2)) then
      some { matType := matType, matId := safeGet r c.1,
             matName := safeGet r c.2.1, matTarget := safeGet r c.2.2 }
    else none)

/-- All qualifying material slots, in the fixed scan order
aggregates, cements, admixtures. -/
def slotConstituents (r : Record) : List Constituent :=
  blockConstituents r tAggregate aggCols ++ blockConstituents r tCement cemCols ++
    blockConstituents r tAdmixture admCols

/-- The synthesized Water constituent of a record. -/
def waterConstituent (r : Record) : Constituent :=
  { matType := tWater, matId := Val.str ("WATER"), matName := Val.str tWater,
    matTarget := safeGet r kWaterTarget }

/-- The full constituent list of a record: the slot scan, then Water when
`WaterTarget` is not zero-or-empty. -/
def mkConstituents (r : Record) : List Constituent :=
  slotConstituents r ++
    (if !(isZeroOrEmpty (safeGet r kWaterTarget)) then [waterConstituent r] else [])

-- ---------- Row emission and the converter ----------

/-- Resolution of the Constituent Item Code: if the trimmed
`String(matName || "")` is non-empty and has a lookup entry, use the looked-up
code; otherwise fall back to the raw material id. -/
def resolveCode (lk : List (String × String)) (matId matName : Val) : Val :=
  let matNameStr := jsTrim (jsToString (jsOr matName vEmpty))
  if matNameStr ≠ "" then
    match mlFind lk matNameStr with
    | some code => Val.str code
    | none => matId
  else matId

/-- One output data row: plant code, the per-mix base data, the constant
columns, and the constituent columns, in the `FINAL_COLUMNS` order. -/
def emitRow (lk : List (String × String)) (r : Record) (plant : String)
    (c : Constituent) : List Val :=
  [ Val.str plant,
    safeGet r kMixId,
    jsOr (safeGet r kName) vEmpty,
    safeGet r kMixId,
    jsOr (safeGet r kExternalId) vEmpty,
    Val.num 28,
    extractStrength (safeGet r kName),
    jsOr (safeGet r kAirFactor) vEmpty,
    vEmpty,
    vEmpty,
    extractSlump (safeGet r kSlump),
    vEmpty,
    vEmpty,
    vEmpty,
    jsOr (safeGet r kWaterTarget) vEmpty,
    vEmpty,
    vEmpty,
    vEmpty,
    vEmpty,
    vEmpty,
    vEmpty,
    resolveCode lk c.matId c.matName,
    jsOr c.matName vEmpty,
    jsOr c.matTarget vEmpty,
    Val.str (getUnitForMaterialType c.matType) ]

/-- All rows of one valid mix: plants in the outer loop, constituents in the
inner loop. -/
def mixRows (lk : List (String × String)) (r : Record) : List (List Val) :=
  PLANTS.flatMap (fun plant => (mkConstituents r).map (emitRow lk r plant))

/-- The `WaterTarget > 0` filter predicate. -/
def validFilter (r : Record) : Bool :=
  !(isZeroOrEmpty (safeGet r kWaterTarget)) &&
    (match jsParseFloat (safeGet r kWaterTarget) with
     | some q => decide (0 < q)
     | none => false)

/-- The filtered record list of a mix table (empty table gives no records). -/
def validMixes (mixData : List (List Val)) : List Record :=
  match mixData with
  | [] => []
  | headers :: rest => (rest.map (buildRecord headers)).filter validFilter

/-- The three fatal failures of `convertMPAQMixes`, one per thrown message. -/
inductive ConvError where
  | emptyInput
  | noValidRows
  | missingRequiredColumns
deriving DecidableEq, Repr

/-- `convertMPAQMixes`.  Empty table fails; records are built from the header
row; the `WaterTarget > 0` filter runs; an empty filtered list fails; the
first filtered record must own the `MixId` and `Name` keys; then the header
row plus, for every valid mix, its plant × constituent rows. -/
def convertMPAQMixes (mixData : List (List Val))
    (materialsData : Option (List (List Val))) : Except ConvError (List (List Val)) :=
  match mixData with
  | [] => Except.error ConvError.emptyInput
  | headers :: rest =>
    match (rest.map (buildRecord headers)).filter validFilter with
    | [] => Except.error ConvError.noValidRows
    | r0 :: tl =>
      if recHas r0 kMixId && recHas r0 kName then
        Except.ok (finalColumnsRow ::
          (r0 :: tl).flatMap (mixRows (lookupOf materialsData)))
      else Except.error ConvError.missingRequiredColumns

-- ---------- Statement-side definitions ----------

/-- Reading of "parse the entire trimmed string as a bare number": the
trimmed string must be consumed completely by the numeric grammar.
(Stated for comparison with `extractSlump`, whose third rung instead uses
`parseFloat`, i.e. a numeric prefix.) -/
def wholeStringNumber (s : String) : Option Rat :=
  match parseSignedNumber (jsTrim s).toList with
  | some (q, []) => some q
  | _ => none

/-- `constituentCount` as the specification words it: the number of
qualifying material slots plus one for the synthesized Water constituent. -/
def numConstituentsSpec (r : Record) : Nat := (slotConstituents r).length + 1

/-- First-occurrence reading of the materials lookup: the trimmed code of the
first data row whose cells are both truthy and whose trimmed name is `name`. -/
def lookupSpecFirst (mi pIdx : Nat) (name : String) : List (List Val) → Option String
  | [] => none
  | row :: tl =>
    if eligibleRow mi pIdx row && (rowName mi row == name) then some (rowCode pIdx row)
    else lookupSpecFirst mi pIdx name tl

-- ---------- Concrete instances used by the closed theorems ----------

/-- A one-mix table: header `MixId, Name, WaterTarget`, one record
`M1 / "30 MPA" / "180"` (valid, Water-only). -/
def tblW : List (List Val) :=
  [ [Val.str kMixId, Val.str kName, Val.str kWaterTarget],
    [Val.str ("M1"), Val.str ("30 MPA"), Val.str ("180")] ]

/-- The successful output of converting `tblW` without a materials table. -/
def outW : List (List Val) := (convertMPAQMixes tblW none).toOption.getD []

/-- The record of `tblW`. -/
def recW : Record :=
  buildRecord [Val.str kMixId, Val.str kName, Val.str kWaterTarget]
    [Val.str ("M1"), Val.str ("30 MPA"), Val.str ("180")]

/-- A non-empty table without `MixId`/`Name` whose only record fails the
`WaterTarget` filter. -/
def c4Tbl : List (List Val) := [[Val.str kWaterTarget], [Val.str ("0")]]

/-- A non-empty table without `MixId`/`Name` whose only record passes the
`WaterTarget` filter. -/
def c4wTbl : List (List Val) := [[Val.str kWaterTarget], [Val.str ("5")]]

/-- The record of `c4wTbl`. -/
def c4wRec : Record := buildRecord [Val.str kWaterTarget] [Val.str ("5")]

/-- The string `Slump '80'mm` (quotes spelled via their code point). -/
def sSlumpQuote : String :=
  String.mk ['S', 'l', 'u', 'm', 'p', ' ', Char.ofNat 39, '8', '0', Char.ofNat 39, 'm', 'm']

def sSlumpPlain : String := "Slump 80mm"
def sBare80 : String := "80"
def sNoData : String := "no data"
def s80abc : String := "80abc"

/-- Materials table with two rows both named `Cement`. -/
def c6MatTbl : List (List Val) :=
  [ [Val.str ("Material Type (Required)"), Val.str ("Production Item Code")],
    [Val.str ("Cement"), Val.str ("C1")],
    [Val.str ("Cement"), Val.str ("C2")] ]

/-- Mix table whose first constituent has material name `" "` (trims to the
empty string). -/
def c7MixTbl : List (List Val) :=
  [ [Val.str kMixId, Val.str kName, Val.str kWaterTarget, Val.str ("Agg1Id"),
     Val.str ("Agg1Name"), Val.str ("Agg1Target")],
    [Val.str ("M1"), Val.str ("Mix"), Val.str ("100"), Val.str ("ID1"),
     Val.str (" "), Val.num 5] ]

/-- Materials table whose single data row's name also trims to the empty
string, mapping key `""` to code `X`. -/
def c7MatTbl : List (List Val) :=
  [ [Val.str ("Material Type (Required)"), Val.str ("Production Item Code")],
    [Val.str (" "), Val.str ("X")] ]

-- ---------- Helper lemmas ----------

/-- Every successful conversion is the fixed header row followed by the
flat-mapped per-mix rows of the filtered records. -/
theorem convertMPAQMixes_ok_shape (mixData : List (List Val))
    (m : Option (List (List Val))) (out : List (List Val))
    (h : convertMPAQMixes mixData m = Except.ok out) :
    out = finalColumnsRow :: (validMixes mixData).flatMap (mixRows (lookupOf m)) := by
  cases mixData with
  | nil => simp [convertMPAQMixes] at h
  | cons headers rest =>
    simp only [convertMPAQMixes] at h
    split at h
    · simp at h
    · rename_i r0 tl heq
      split at h
      · cases h
        simp [validMixes, heq]
      · simp at h

/-- Members of the filtered record list satisfy the filter. -/
theorem validMixes_mem_filter (mixData : List (List Val)) (r : Record)
    (hr : r ∈ validMixes mixData) : validFilter r = true := by
  cases mixData with
  | nil => simp [validMixes] at hr
  | cons headers rest =>
    simp only [validMixes] at hr
    exact (List.mem_filter.mp hr).2

/-- For a record that passes the filter, the constituent list is the slot
scan plus the Water constituent. -/
theorem mkConstituents_of_valid (r : Record) (hr : validFilter r = true) :
    mkConstituents r = slotConstituents r ++ [waterConstituent r] := by
  have hz : isZeroOrEmpty (safeGet r kWaterTarget) = false := by
    simp only [validFilter, Bool.and_eq_true, Bool.not_eq_true'] at hr
    exact hr.1
  simp [mkConstituents, hz]

/-- Constituent count of a valid record, as the spec counts it. -/
theorem mkConstituents_length_of_valid (r : Record) (hr : validFilter r = true) :
    (mkConstituents r).length = numConstituentsSpec r := by
  rw [mkConstituents_of_valid r hr]
  simp [numConstituentsSpec]

/-- A valid record contributes `5 * constituentCount` rows. -/
theorem mixRows_length (lk : List (String × String)) (r : Record)
    (hr : validFilter r = true) :
    (mixRows lk r).length = 5 * numConstituentsSpec r := by
  rw [← mkConstituents_length_of_valid r hr]
  simp [mixRows, PLANTS]
  ring

/-- Row count of the flat-mapped body. -/
theorem flatMap_mixRows_length (lk : List (String × String)) (l : List Record)
    (hall : ∀ r ∈ l, validFilter r = true) :
    (l.flatMap (mixRows lk)).length = (l.map (fun r => 5 * numConstituentsSpec r)).sum := by
  induction l with
  | nil => simp
  | cons r tl ih =>
    simp only [List.flatMap_cons, List.length_append, List.map_cons, List.sum_cons]
    rw [mixRows_length lk r (hall r (List.mem_cons_self r tl)),
      ih (fun x hx => hall x (List.mem_cons_of_mem r hx))]

/-- `mlFind` over an appended lookup: the left part is searched first. -/
theorem mlFind_append (l1 l2 : List (String × String)) (k : String) :
    mlFind (l1 ++ l2) k =
      match mlFind l1 k with
      | some c => some c
      | none => mlFind l2 k := by
  induction l1 with
  | nil => simp [mlFind]
  | cons p tl ih =>
    simp only [List.cons_append, mlFind]
    cases hp : (p.1 == k) with
    | true => simp
    | false => simpa using ih

/-- Folding `lookupStep` refines first-occurrence search: a key already in
the accumulator keeps its value, otherwise the first eligible row with that
trimmed name provides it. -/
theorem mlFind_foldl_lookupStep (mi pIdx : Nat) (rows : List (List Val)) :
    ∀ (acc : List (String × String)) (name : String),
      mlFind (rows.foldl (lookupStep mi pIdx) acc) name =
        match mlFind acc name with
        | some c => some c
        | none => lookupSpecFirst mi pIdx name rows := by
  induction rows with
  | nil =>
    intro acc name
    cases h : mlFind acc name <;> simp [lookupSpecFirst, h]
  | cons row tl ih =>
    intro acc name
    simp only [List.foldl_cons]
    rw [ih]
    cases ht : eligibleRow mi pIdx row with
    | false => simp [lookupStep, lookupSpecFirst, ht]
    | true =>
      cases hfind : (mlFind acc (rowName mi row)).isSome with
      | true =>
        cases hnm : (rowName mi row == name) with
        | true =>
          have hname : rowName mi row = name := by simpa using hnm
          rcases Option.isSome_iff_exists.mp (hname ▸ hfind) with ⟨d, hd⟩
          simp [lookupStep, lookupSpecFirst, ht, hfind, hname, hd]
        | false =>
          simp [lookupStep, lookupSpecFirst, ht, hfind, hnm]
      | false =>
        cases hnm : (rowName mi row == name) with
        | true =>
          have hname : rowName mi row = name := by simpa using hnm
          have hnone : mlFind acc name = none := by
            cases hmf : mlFind acc name with
            | none => rfl
            | some d =>
              rw [hname, hmf] at hfind
              simp at hfind
          simp [lookupStep, lookupSpecFirst, mlFind_append, mlFind, ht, hfind, hnone, hname]
        | false =>
          cases hmf : mlFind acc name with
          | none =>
            simp [lookupStep, lookupSpecFirst, mlFind_append, mlFind, ht, hfind, hnm, hmf]
          | some d =>
            simp [lookupStep, lookupSpecFirst, mlFind_append, mlFind, ht, hfind, hnm, hmf]

-- ---------- Claim theorems ----------

/-- C1: for every successful conversion the number of data rows (all rows
minus the prepended header) equals the sum over the filtered mixes of
`5 * constituentCount`, where `constituentCount` counts the qualifying
Aggregate 1-6, Cement 1-4 and Admixture 1-8 slots (Id non-empty, Target not
zero-or-empty) plus one for the synthesized Water constituent, and
`constituentCount` is always at least 1. -/
theorem c1_row_count_law (mixData : List (List Val)) (m : Option (List (List Val)))
    (out : List (List Val)) (h : convertMPAQMixes mixData m = Except.ok out) :
    out.length = 1 + ((validMixes mixData).map (fun r => 5 * numConstituentsSpec r)).sum ∧
      ∀ r ∈ validMixes mixData, 1 ≤ numConstituentsSpec r := by
  constructor
  · rw [convertMPAQMixes_ok_shape mixData m out h]
    simp only [List.length_cons]
    rw [flatMap_mixRows_length (lookupOf m) (validMixes mixData)
      (fun r hr => validMixes_mem_filter mixData r hr)]
    omega
  · intro r _
    simp [numConstituentsSpec]

/-- C1 witness: the one-mix Water-only table has `1 + 5 * 1` output rows. -/
theorem c1_row_count_law_witness :
    outW.length = 1 + ((validMixes tblW).map (fun r => 5 * numConstituentsSpec r)).sum :=
  (c1_row_count_law tblW none outW rfl).1

/-- C8: every successful conversion starts with the fixed 25-column header
row (the `FINAL_COLUMNS` titles, verbatim), and every row of the result has
exactly 25 cells. -/
theorem c8_header_contract (mixData : List (List Val)) (m : Option (List (List Val)))
    (out : List (List Val)) (h : convertMPAQMixes mixData m = Except.ok out) :
    out.headD [] = finalColumnsRow ∧ finalColumnsRow = FINAL_COLUMNS.map Val.str ∧
      FINAL_COLUMNS.length = 25 ∧ ∀ row ∈ out, row.length = 25 := by
  rw [convertMPAQMixes_ok_shape mixData m out h]
  refine ⟨rfl, rfl, by decide, ?_⟩
  intro row hrow
  rcases List.mem_cons.mp hrow with h1 | h2
  · subst h1
    decide
  · rcases List.mem_flatMap.mp h2 with ⟨r, _, hrow2⟩
    simp only [mixRows] at hrow2
    rcases List.mem_flatMap.mp hrow2 with ⟨p, _, hrow3⟩
    rcases List.mem_map.mp hrow3 with ⟨c, _, hc⟩
    rw [← hc]
    simp [emitRow]

/-- C8 witness: the header of the concrete conversion output. -/
theorem c8_header_contract_witness :
    outW.headD [] = finalColumnsRow ∧ outW.length = 6 :=
  ⟨(c8_header_contract tblW none outW rfl).1, by decide⟩

/-- C9: the converter is a pure function of its two arguments - equal
inputs give cell-for-cell equal results, with no dependence on time,
randomness, or earlier invocations (there is no other state in the model). -/
theorem c9_deterministic (mix1 mix2 : List (List Val))
    (mat1 mat2 : Option (List (List Val))) (hmix : mix1 = mix2) (hmat : mat1 = mat2) :
    convertMPAQMixes mix1 mat1 = convertMPAQMixes mix2 mat2 := by
  rw [hmix, hmat]

/-- C9 witness: two calls on the same concrete input agree. -/
theorem c9_deterministic_witness :
    convertMPAQMixes tblW none = convertMPAQMixes tblW none :=
  c9_deterministic tblW tblW none none rfl rfl

/-- C10: in every data row of a successful conversion, Strength Age
(column 5) is the number 28 and the Min/Max Air Content, Min/Max Slump,
Max Batch Size, Max W/C+P, Max W/C, Mix Class Names, Mix Usage,
Dispatch Slump Range and Dispatch columns (8, 9, 11, 12, 13, 15-20) are the
empty string. -/
theorem c10_constant_columns (mixData : List (List Val)) (m : Option (List (List Val)))
    (out : List (List Val)) (h : convertMPAQMixes mixData m = Except.ok out) :
    ∀ row ∈ out.tail,
      row.getD 5 Val.undef = Val.num 28 ∧
      row.getD 8 Val.undef = vEmpty ∧ row.getD 9 Val.undef = vEmpty ∧
      row.getD 11 Val.undef = vEmpty ∧ row.getD 12 Val.undef = vEmpty ∧
      row.getD 13 Val.undef = vEmpty ∧ row.getD 15 Val.undef = vEmpty ∧
      row.getD 16 Val.undef = vEmpty ∧ row.getD 17 Val.undef = vEmpty ∧
      row.getD 18 Val.undef = vEmpty ∧ row.getD 19 Val.undef = vEmpty ∧
      row.getD 20 Val.undef = vEmpty := by
  rw [convertMPAQMixes_ok_shape mixData m out h]
  intro row hrow
  simp only [List.tail_cons] at hrow
  rcases List.mem_flatMap.mp hrow with ⟨r, _, hrow2⟩
  simp only [mixRows] at hrow2
  rcases List.mem_flatMap.mp hrow2 with ⟨p, _, hrow3⟩
  rcases List.mem_map.mp hrow3 with ⟨c, _, hc⟩
  rw [← hc]
  exact ⟨rfl, rfl, rfl, rfl, rfl, rfl, rfl, rfl, rfl, rfl, rfl, rfl⟩

/-- C10 witness: the first data row of the concrete conversion. -/
theorem c10_constant_columns_witness :
    (outW.getD 1 []).getD 5 Val.undef = Val.num 28 ∧
      (outW.getD 1 []).getD 20 Val.undef = vEmpty := by
  have h := c10_constant_columns tblW none outW rfl (outW.getD 1 []) (by decide)
  exact ⟨h.1, h.2.2.2.2.2.2.2.2.2.2.2⟩

/-- C3: per valid mix, rows are emitted with the fixed plant sequence
`01, 02, 03, 05, 06` as the outer loop and the constituents as the inner
loop; a row's head is its plant code and its tail does not depend on the
plant, so for a single-constituent (Water-only) mix the five rows are one
per plant, in order, identical except the Plant Code cell; the successful
output is exactly the header followed by these blocks in mix order. -/
theorem c3_plant_fanout :
    PLANTS = ["01", "02", "03", "05", "06"] ∧
    (∀ lk r, mixRows lk r =
        PLANTS.flatMap (fun plant => (mkConstituents r).map (emitRow lk r plant))) ∧
    (∀ lk r plant plant2 c,
        (emitRow lk r plant c).headD vEmpty = Val.str plant ∧
        (emitRow lk r plant c).tail = (emitRow lk r plant2 c).tail) ∧
    (∀ lk r c, mkConstituents r = [c] →
        mixRows lk r = PLANTS.map (fun plant => emitRow lk r plant c) ∧
        (mixRows lk r).length = 5) ∧
    (∀ mixData m out, convertMPAQMixes mixData m = Except.ok out →
        out.tail = (validMixes mixData).flatMap (mixRows (lookupOf m))) := by
  refine ⟨rfl, fun lk r => rfl, fun lk r plant plant2 c => ⟨rfl, rfl⟩, ?_, ?_⟩
  · intro lk r c hone
    constructor
    · simp [mixRows, PLANTS, hone]
    · simp [mixRows, PLANTS, hone]
  · intro mixData m out h
    rw [convertMPAQMixes_ok_shape mixData m out h]
    rfl

/-- C3 witness: the Water-only record of the concrete table fans out to the
five plants in order. -/
theorem c3_plant_fanout_witness :
    mixRows [] recW = PLANTS.map (fun plant => emitRow [] recW plant (waterConstituent recW)) :=
  (c3_plant_fanout.2.2.2.1 [] recW (waterConstituent recW) (by decide)).1

/-- C2: a record passes the pipeline filter exactly when its `WaterTarget`
cell parses (by the `parseFloat` semantics) to a number strictly greater
than 0; each of the zero-or-empty `WaterTarget` values - null, undefined,
the empty string (also what a missing key yields through `safeGet`), NaN,
numeric 0 and the string "0" - fails the filter; and deleting a data row
that fails the filter from the table leaves the entire conversion result
unchanged, so such a record contributes nothing, directly or indirectly. -/
theorem c2_water_filter :
    (∀ r : Record, validFilter r = true ↔
        ∃ q : Rat, jsParseFloat (safeGet r kWaterTarget) = some q ∧ 0 < q) ∧
    (∀ r : Record,
        (safeGet r kWaterTarget = Val.null ∨ safeGet r kWaterTarget = Val.undef ∨
         safeGet r kWaterTarget = vEmpty ∨ safeGet r kWaterTarget = Val.nan ∨
         safeGet r kWaterTarget = Val.num 0 ∨ safeGet r kWaterTarget = Val.str ("0")) →
        validFilter r = false) ∧
    (∀ headers pre row post m, validFilter (buildRecord headers row) = false →
        convertMPAQMixes (headers :: (pre ++ row :: post)) m =
          convertMPAQMixes (headers :: (pre ++ post)) m) := by
  refine ⟨?_, ?_, ?_⟩
  · intro r
    unfold validFilter
    cases hwt : safeGet r kWaterTarget with
    | str s =>
      cases hp : jsParseFloatStr s with
      | none => simp [jsParseFloat, hp]
      | some q =>
        by_cases hz : s = "0"
        · subst hz
          have hq0 : q = 0 := by
            have : jsParseFloatStr ("0") = some 0 := by decide
            rw [this] at hp
            exact (Option.some.injEq _ _).mp hp.symm
          subst hq0
          simp [jsParseFloat, hp, isZeroOrEmpty, isEmptyValue]
        · by_cases he : s = ""
          · subst he
            have : jsParseFloatStr ("") = none := by decide
            rw [this] at hp
            cases hp
          · constructor
            · intro hval
              refine ⟨q, by simp [jsParseFloat, hp], ?_⟩
              simp only [jsParseFloat, hp, Bool.and_eq_true, decide_eq_true_eq] at hval
              exact hval.2
            · rintro ⟨q2, hq2, hpos⟩
              simp only [jsParseFloat, hp, Option.some.injEq] at hq2
              subst hq2
              simp [jsParseFloat, hp, isZeroOrEmpty, isEmptyValue, he, hz, hpos]
    | num q =>
      constructor
      · intro hval
        simp only [jsParseFloat, isZeroOrEmpty, isEmptyValue, Bool.and_eq_true,
          decide_eq_true_eq] at hval ⊢
        exact ⟨q, rfl, hval.2⟩
      · rintro ⟨q2, hq2, hpos⟩
        have hq : q2 = q := by
          simp only [jsParseFloat, Option.some.injEq] at hq2
          exact hq2.symm
        subst hq
        simp [isZeroOrEmpty, isEmptyValue, jsParseFloat, hpos.ne', hpos]
    | nan => simp [jsParseFloat]
    | null => simp [jsParseFloat]
    | undef => simp [jsParseFloat]
  · intro r hdisj
    rcases hdisj with h | h | h | h | h | h <;>
      (unfold validFilter; rw [h]; decide)
  · intro headers pre row post m hrow
    have hfeq : ((pre ++ row :: post).map (buildRecord headers)).filter validFilter =
        ((pre ++ post).map (buildRecord headers)).filter validFilter := by
      simp [List.map_append, List.filter_append, List.filter_cons, hrow]
    simp only [convertMPAQMixes]
    rw [hfeq]

/-- C2 witness: the `"0"`-watered record fails the filter and its deletion
leaves the conversion of the concrete two-record table unchanged. -/
theorem c2_water_filter_witness :
    validFilter (buildRecord [Val.str kWaterTarget] [Val.str ("0")]) = false ∧
      convertMPAQMixes ([Val.str kWaterTarget] ::
          ([] ++ [Val.str ("0")] :: [[Val.str ("5")]])) none =
        convertMPAQMixes ([Val.str kWaterTarget] :: ([] ++ [[Val.str ("5")]])) none :=
  ⟨by decide,
    c2_water_filter.2.2 [Val.str kWaterTarget] [] [Val.str ("0")] [[Val.str ("5")]] none
      (by decide)⟩

/-- C4 counterexample: `c4Tbl` is a non-empty mix table whose records lack
the `MixId` and `Name` keys entirely, yet (because no record has
`WaterTarget > 0` and the filter runs first) the conversion fails with
`NoValidRows`, not with `MissingRequiredColumns` as the claim states. -/
theorem c4_counterexample :
    convertMPAQMixes c4Tbl none = Except.error ConvError.noValidRows ∧
      ConvError.noValidRows ≠ ConvError.missingRequiredColumns ∧
      recHas (buildRecord [Val.str kWaterTarget] [Val.str ("0")]) kMixId = false ∧
      recHas (buildRecord [Val.str kWaterTarget] [Val.str ("0")]) kName = false := by
  refine ⟨rfl, by decide, by decide, by decide⟩

/-- C4 amended: the `MixId`/`Name` key check is made against the first
record that passes the `WaterTarget` filter and happens after the filter:
when the filtered list is non-empty and its first record lacks either key,
the conversion fails with `MissingRequiredColumns`; when the filtered list
is empty it fails with `NoValidRows`, even if the keys are also missing. -/
theorem c4_missing_columns_after_filter :
    (∀ headers rest m r0 tl, validMixes (headers :: rest) = r0 :: tl →
        (recHas r0 kMixId && recHas r0 kName) = false →
        convertMPAQMixes (headers :: rest) m =
          Except.error ConvError.missingRequiredColumns) ∧
    (∀ headers rest m, validMixes (headers :: rest) = [] →
        convertMPAQMixes (headers :: rest) m = Except.error ConvError.noValidRows) := by
  constructor
  · intro headers rest m r0 tl hv hk
    simp only [validMixes] at hv
    simp only [convertMPAQMixes]
    rw [hv]
    simp [hk]
  · intro headers rest m hv
    simp only [validMixes] at hv
    simp only [convertMPAQMixes]
    rw [hv]

/-- C4 amended witness: a table without `MixId`/`Name` whose single record
passes the filter fails with `MissingRequiredColumns`. -/
theorem c4_missing_columns_after_filter_witness :
    convertMPAQMixes c4wTbl none = Except.error ConvError.missingRequiredColumns :=
  c4_missing_columns_after_filter.1 [Val.str kWaterTarget] [[Val.str ("5")]] none
    c4wRec [] (by decide) (by decide)

/-- C5 counterexample: on `"80abc"` neither regex pattern matches and the
entire trimmed string is not a bare number, so the claim's ladder yields
empty - but `extractSlump` returns `80`, because the third rung is
`parseFloat`, which parses a numeric prefix and ignores trailing text. -/
theorem c5_counterexample :
    extractSlump (Val.str s80abc) = Val.num 80 ∧
      scanPat1 s80abc.toList = none ∧
      scanPat2 s80abc.toList = none ∧
      wholeStringNumber s80abc = none := by
  refine ⟨by decide, by decide, by decide, by decide⟩

/-- C5 amended: `extractSlump` evaluates, in order, (a) the quoted-`mm`
pattern anywhere in the string, (b) the case-insensitive
`Slump <ws> <digits> mm` pattern, (c) `parseFloat` of the string - the
longest numeric prefix after leading whitespace, trailing text ignored -
returning the first success, empty when all fail and empty on null or
undefined input; on the ladder examples: quoted form and worded form and
bare number give 80, and a non-numeric string gives empty. -/
theorem c5_slump_ladder :
    (∀ s : String, extractSlump (Val.str s) =
        (match scanPat1 s.toList with
         | some q => Val.num q
         | none =>
           match scanPat2 s.toList with
           | some q => Val.num q
           | none =>
             match jsParseFloatStr s with
             | some q => Val.num q
             | none => vEmpty)) ∧
    extractSlump Val.null = vEmpty ∧
    extractSlump Val.undef = vEmpty ∧
    extractSlump (Val.str sSlumpQuote) = Val.num 80 ∧
    extractSlump (Val.str sSlumpPlain) = Val.num 80 ∧
    extractSlump (Val.str sBare80) = Val.num 80 ∧
    extractSlump (Val.str sNoData) = vEmpty := by
  refine ⟨fun s => rfl, rfl, rfl, by decide, by decide, by decide, by decide⟩

/-- C6: under the fuzzy header match (hypotheses fix the two column
indices), the built lookup maps a trimmed name to the trimmed Production
Item Code of the first eligible data row (both cells truthy) bearing that
trimmed name - a later duplicate row is ignored, never overwrites. -/
theorem c6_lookup_first_wins (headers : List Val) (rows : List (List Val))
    (mi pIdx : Nat) (name : String)
    (hmi : headers.findIdx? matTypePred = some mi)
    (hpi : headers.findIdx? prodCodePred = some pIdx) :
    mlFind (createMaterialsLookup (headers :: rows)) name =
      lookupSpecFirst mi pIdx name rows := by
  have hck : createMaterialsLookup (headers :: rows) = rows.foldl (lookupStep mi pIdx) [] := by
    simp only [createMaterialsLookup]
    rw [hmi, hpi]
  rw [hck, mlFind_foldl_lookupStep mi pIdx rows [] name]
  rfl

/-- C6 witness: with two rows named `Cement`, the resolved code is the
first row's. -/
theorem c6_lookup_first_wins_witness :
    mlFind (createMaterialsLookup c6MatTbl) ("Cement") = some ("C1") :=
  (c6_lookup_first_wins
      [Val.str ("Material Type (Required)"), Val.str ("Production Item Code")]
      [[Val.str ("Cement"), Val.str ("C1")], [Val.str ("Cement"), Val.str ("C2")]]
      0 1 ("Cement") (by decide) (by decide)).trans (by decide)

/-- C7 counterexample: a materials row whose name cell `" "` is truthy but
trims to the empty string puts the key `""` into the lookup; a constituent
whose name also trims to `""` then has a lookup entry for its trimmed name,
yet the emitted Constituent Item Code is the raw id `ID1`, not the entry
`X`, because the code consults the lookup only for non-empty trimmed
names. -/
theorem c7_counterexample :
    createMaterialsLookup c7MatTbl = [("", "X")] ∧
      mlFind (createMaterialsLookup c7MatTbl) (jsTrim (jsToString (jsOr (Val.str (" ")) vEmpty))) =
        some ("X") ∧
      (((convertMPAQMixes c7MixTbl (some c7MatTbl)).toOption.getD []).getD 1 []).getD 21
          Val.undef = Val.str ("ID1") ∧
      Val.str ("ID1") ≠ Val.str ("X") := by
  refine ⟨by decide, by decide, by decide, by decide⟩

/-- C7 amended: in every emitted row the Constituent Item Code cell (index
21) is `resolveCode`; when the constituent's trimmed name is non-empty and
has a lookup entry the entry is used, when the trimmed name has no entry
the raw material id passes through unchanged, and when the trimmed name is
empty the raw id is used even if the lookup has an entry for `""`; and a
missing lookup entry can never make the conversion fail - success does not
depend on the materials table at all. -/
theorem c7_lookup_fallback :
    (∀ lk r plant c, (emitRow lk r plant c).getD 21 Val.undef =
        resolveCode lk c.matId c.matName) ∧
    (∀ lk (idv nm : Val), jsTrim (jsToString (jsOr nm vEmpty)) ≠ "" →
        ∀ code, mlFind lk (jsTrim (jsToString (jsOr nm vEmpty))) = some code →
        resolveCode lk idv nm = Val.str code) ∧
    (∀ lk (idv nm : Val), mlFind lk (jsTrim (jsToString (jsOr nm vEmpty))) = none →
        resolveCode lk idv nm = idv) ∧
    (∀ lk (idv nm : Val), jsTrim (jsToString (jsOr nm vEmpty)) = "" →
        resolveCode lk idv nm = idv) ∧
    (∀ mixData m, (convertMPAQMixes mixData m).isOk = (convertMPAQMixes mixData none).isOk) := by
  refine ⟨fun lk r plant c => rfl, ?_, ?_, ?_, ?_⟩
  · intro lk idv nm hne code hcode
    simp only [resolveCode]
    rw [if_pos hne, hcode]
  · intro lk idv nm hcode
    simp only [resolveCode]
    by_cases hne : jsTrim (jsToString (jsOr nm vEmpty)) ≠ ""
    · rw [if_pos hne, hcode]
    · rw [if_neg hne]
  · intro lk idv nm hempty
    simp only [resolveCode]
    rw [if_neg (by simpa using hempty)]
  · intro mixData m
    cases mixData with
    | nil => rfl
    | cons headers rest =>
      simp only [convertMPAQMixes]
      cases (rest.map (buildRecord headers)).filter validFilter with
      | nil => rfl
      | cons r0 tl =>
        cases hk : (recHas r0 kMixId && recHas r0 kName) with
        | true => simp [hk, Except.isOk, Except.toBool]
        | false => simp [hk, Except.isOk, Except.toBool]

/-- C7 amended witness: a constituent named `Fly Ash` with no entry in the
(empty) lookup resolves to its raw material id. -/
theorem c7_lookup_fallback_witness :
    resolveCode [] (Val.str ("ID9")) (Val.str ("Fly Ash")) = Val.str ("ID9") :=
  c7_lookup_fallback.2.2.1 [] (Val.str ("ID9")) (Val.str ("Fly Ash")) (by decide)
